import Mathlib

/-!
Verification of the finance-tracker backend (`backend/api`): a shallow
embedding of the data model (`models.py`), the net-worth summary and
price-refresh views (`views.py`) and the snapshot read model, with the
spec's testable properties settled as theorems.

Conventions of the embedding:
* Django's fixed-point `Decimal` columns are embedded as `ℚ`: every decimal
  is a rational, and `+`, `-`, `*` on decimals agree exactly with the
  rational operations, so exact-decimal identities are stated over `ℚ`.
* Dates are embedded as `Nat` (ordinal days); only their linear order is
  used by the code.
* Foreign keys are embedded as record ids (`Nat`); a table is a `List` of
  rows, and per-user query scoping (`filter(user=...)`) is `List.filter`.
* The `requests`/`yfinance` calls are modelled by passing the provider's
  response (or its failure) as an explicit argument to the view function.
-/

/-- Row of `BankAccount` (models.py). Only the columns the verified
views read are carried. -/
structure BankAccount where
  id : Nat
  userId : Nat
  name : String
  bank_name : String
  balance : ℚ
  deriving DecidableEq, Repr

/-- Row of `SuperannuationAccount` (models.py). -/
structure SuperannuationAccount where
  id : Nat
  userId : Nat
  fund_name : String
  balance : ℚ
  employer_contribution : ℚ
  personal_contribution : ℚ
  deriving DecidableEq, Repr

/-- Row of `SuperannuationSnapshot` (models.py): a dated balance snapshot
of one superannuation account. -/
structure SuperannuationSnapshot where
  accountId : Nat
  date : Nat
  balance : ℚ
  employer_contribution : ℚ
  personal_contribution : ℚ
  deriving DecidableEq, Repr

/-- Row of `ETFHolding` (models.py). -/
structure ETFHolding where
  id : Nat
  userId : Nat
  symbol : String
  units : ℚ
  average_price : ℚ
  current_price : ℚ
  deriving DecidableEq, Repr

/-- Row of `ETFTransaction` (models.py); `etfId` is the FK to the parent
`ETFHolding`. -/
structure ETFTransaction where
  etfId : Nat
  transaction_type : String
  date : Nat
  units : Option ℚ
  price_per_unit : Option ℚ
  total_amount : ℚ
  deriving DecidableEq, Repr

/-- Row of `CryptoHolding` (models.py plus the `coingecko_id` column used
by `views.py`, `serializers.py` and the test fixtures; `none` models a
blank/unset id, which is falsy in the views' guards). -/
structure CryptoHolding where
  id : Nat
  userId : Nat
  symbol : String
  coingecko_id : Option String
  quantity : ℚ
  average_price : ℚ
  current_price : ℚ
  deriving DecidableEq, Repr

/-- Row of `StockHolding` (models.py). -/
structure StockHolding where
  id : Nat
  userId : Nat
  symbol : String
  exchange : String
  units : ℚ
  average_price : ℚ
  current_price : ℚ
  deriving DecidableEq, Repr

/-- Row of `StockTransaction` (models.py); `stockId` is the FK to the
parent `StockHolding`. -/
structure StockTransaction where
  stockId : Nat
  transaction_type : String
  date : Nat
  units : Option ℚ
  price_per_unit : Option ℚ
  total_amount : ℚ
  deriving DecidableEq, Repr

/-- Modelled from the spec: the `AssetSnapshot` model is imported from
`models.py` by `serializers.py` and the tests but its definition is not in
the provided source; spec section 3 gives its columns (user, date, asset
type, asset name/identifier, value, optional quantity/price). -/
structure AssetSnapshot where
  userId : Nat
  date : Nat
  asset_type : String
  asset_name : String
  asset_identifier : String
  value : ℚ
  quantity : Option ℚ
  price_per_unit : Option ℚ
  deriving DecidableEq, Repr

/-- Modelled from the spec: the `NetWorthSnapshot` model is imported from
`models.py` by `serializers.py` and the tests but its definition is not in
the provided source; spec section 3 gives its columns (user, date, notes)
and the unique (user, date) constraint. -/
structure NetWorthSnapshot where
  userId : Nat
  date : Nat
  notes : String
  deriving DecidableEq, Repr

/-- The relational store: one list per table of section 3's data model. -/
structure Db where
  bankAccounts : List BankAccount
  superAccounts : List SuperannuationAccount
  superSnapshots : List SuperannuationSnapshot
  etfHoldings : List ETFHolding
  etfTransactions : List ETFTransaction
  cryptoHoldings : List CryptoHolding
  stockHoldings : List StockHolding
  stockTransactions : List StockTransaction
  assetSnapshots : List AssetSnapshot
  netWorthSnapshots : List NetWorthSnapshot
  deriving DecidableEq, Repr

/-- `ETFHolding.market_value` (models.py line 219): `units * current_price`. -/
def ETFHolding.market_value (h : ETFHolding) : ℚ :=
  h.units * h.current_price

/-- `ETFHolding.cost_basis` (models.py line 223): `units * average_price`. -/
def ETFHolding.cost_basis (h : ETFHolding) : ℚ :=
  h.units * h.average_price

/-- `ETFHolding.unrealised_gain` (models.py line 227). -/
def ETFHolding.unrealised_gain (h : ETFHolding) : ℚ :=
  h.market_value - h.cost_basis

/-- `CryptoHolding.market_value` (models.py line 294): `quantity * current_price`. -/
def CryptoHolding.market_value (h : CryptoHolding) : ℚ :=
  h.quantity * h.current_price

/-- `CryptoHolding.cost_basis` (models.py line 298): `quantity * average_price`. -/
def CryptoHolding.cost_basis (h : CryptoHolding) : ℚ :=
  h.quantity * h.average_price

/-- `CryptoHolding.unrealised_gain` (models.py line 302). -/
def CryptoHolding.unrealised_gain (h : CryptoHolding) : ℚ :=
  h.market_value - h.cost_basis

/-- `StockHolding.market_value` (models.py line 370): `units * current_price`. -/
def StockHolding.market_value (h : StockHolding) : ℚ :=
  h.units * h.current_price

/-- `StockHolding.cost_basis` (models.py line 374): `units * average_price`. -/
def StockHolding.cost_basis (h : StockHolding) : ℚ :=
  h.units * h.average_price

/-- `StockHolding.unrealised_gain` (models.py line 378). -/
def StockHolding.unrealised_gain (h : StockHolding) : ℚ :=
  h.market_value - h.cost_basis

/-- `SuperannuationSnapshot.total_contributions` (models.py line 175):
employer plus personal contribution. -/
def SuperannuationSnapshot.total_contributions
    (s : SuperannuationSnapshot) : ℚ :=
  s.employer_contribution + s.personal_contribution

/-- The row with the greatest `key` among a list, `none` on the empty
list; on a tie the earlier row wins, mirroring a database scan under a
descending order clause. -/
def pickLatest {α : Type} (key : α → Nat) : List α → Option α
  | [] => none
  | x :: xs =>
    match pickLatest key xs with
    | none => some x
    | some y => if key x < key y then some y else some x

/-- The queryset `SuperannuationSnapshot.objects.filter(account=self.account,
date__lt=self.date)` of models.py line 186. -/
def superPrevCandidates (rows : List SuperannuationSnapshot)
    (s : SuperannuationSnapshot) : List SuperannuationSnapshot :=
  rows.filter (fun p => p.accountId == s.accountId && p.date < s.date)

/-- `SuperannuationSnapshot.investment_gain` (models.py line 180): balance
change since the previous snapshot of the same account minus this period's
contributions, `0` when no previous snapshot exists.  `.first()` under the
model's `ordering = ['-date']` is the candidate with the greatest date. -/
def SuperannuationSnapshot.investment_gain
    (rows : List SuperannuationSnapshot) (s : SuperannuationSnapshot) : ℚ :=
  match pickLatest (fun p => p.date) (superPrevCandidates rows s) with
  | some previous => (s.balance - previous.balance) - s.total_contributions
  | none => 0

/-- The owning user of an ETF transaction through its FK, as joined by the
queryset filter `etf__user=user` (views.py line 266). -/
def etfTxnUser (db : Db) (t : ETFTransaction) : Option Nat :=
  (db.etfHoldings.find? (fun h => h.id == t.etfId)).map (fun h => h.userId)

/-- The owning user of a stock transaction through its FK, as joined by
the queryset filter `stock__user=user` (views.py line 284). -/
def stockTxnUser (db : Db) (t : StockTransaction) : Option Nat :=
  (db.stockHoldings.find? (fun h => h.id == t.stockId)).map (fun h => h.userId)

/-- The response body of the `networth_summary` view (views.py lines
299-339), with the string formatting dropped. -/
structure NetworthSummary where
  total_networth : ℚ
  bank_total : ℚ
  bank_count : Nat
  super_total : ℚ
  super_count : Nat
  etf_market_value : ℚ
  etf_cost_basis : ℚ
  etf_unrealised_gain : ℚ
  etf_dividends : ℚ
  etf_count : Nat
  crypto_market_value : ℚ
  crypto_cost_basis : ℚ
  crypto_unrealised_gain : ℚ
  crypto_count : Nat
  stock_market_value : ℚ
  stock_cost_basis : ℚ
  stock_unrealised_gain : ℚ
  stock_dividends : ℚ
  stock_count : Nat
  total_invested : ℚ
  total_unrealised_gain : ℚ
  total_dividends : ℚ
  deriving DecidableEq, Repr

/-- The `networth_summary` view (views.py lines 243-339), computed for the
authenticated user `u`.  Note that `bank_count` and `super_count` transcribe
`BankAccount.objects.count()` and `SuperannuationAccount.objects.count()`
(views.py lines 305 and 309), which count the whole tables, while every
other aggregate is scoped by `filter(user=user)`. -/
def networth_summary (db : Db) (u : Nat) : NetworthSummary :=
  let bank_accounts := db.bankAccounts.filter (fun a => a.userId == u)
  let bank_total := (bank_accounts.map (fun a => a.balance)).sum
  let super_accounts := db.superAccounts.filter (fun a => a.userId == u)
  let super_total := (super_accounts.map (fun a => a.balance)).sum
  let etf_holdings := db.etfHoldings.filter (fun h => h.userId == u)
  let etf_total := (etf_holdings.map ETFHolding.market_value).sum
  let etf_cost := (etf_holdings.map ETFHolding.cost_basis).sum
  let etf_dividends :=
    ((db.etfTransactions.filter (fun t =>
        etfTxnUser db t == some u
          && (t.transaction_type == "dividend"
              || t.transaction_type == "distribution"))).map
      (fun t => t.total_amount)).sum
  let crypto_holdings := db.cryptoHoldings.filter (fun h => h.userId == u)
  let crypto_total := (crypto_holdings.map CryptoHolding.market_value).sum
  let crypto_cost := (crypto_holdings.map CryptoHolding.cost_basis).sum
  let stock_holdings := db.stockHoldings.filter (fun h => h.userId == u)
  let stock_total := (stock_holdings.map StockHolding.market_value).sum
  let stock_cost := (stock_holdings.map StockHolding.cost_basis).sum
  let stock_dividends :=
    ((db.stockTransactions.filter (fun t =>
        stockTxnUser db t == some u
          && t.transaction_type == "dividend")).map
      (fun t => t.total_amount)).sum
  { total_networth :=
      bank_total + super_total + etf_total + crypto_total + stock_total
    bank_total := bank_total
    bank_count := db.bankAccounts.length
    super_total := super_total
    super_count := db.superAccounts.length
    etf_market_value := etf_total
    etf_cost_basis := etf_cost
    etf_unrealised_gain := etf_total - etf_cost
    etf_dividends := etf_dividends
    etf_count := etf_holdings.length
    crypto_market_value := crypto_total
    crypto_cost_basis := crypto_cost
    crypto_unrealised_gain := crypto_total - crypto_cost
    crypto_count := crypto_holdings.length
    stock_market_value := stock_total
    stock_cost_basis := stock_cost
    stock_unrealised_gain := stock_total - stock_cost
    stock_dividends := stock_dividends
    stock_count := stock_holdings.length
    total_invested := etf_cost + crypto_cost + stock_cost
    total_unrealised_gain :=
      (etf_total - etf_cost) + (crypto_total - crypto_cost)
        + (stock_total - stock_cost)
    total_dividends := etf_dividends + stock_dividends }

/-- The asset snapshot values of one user on one date, filtered as the
snapshot read model does when grouping `AssetSnapshot` rows under the
`NetWorthSnapshot` of the same (user, date). -/
def assetValuesOn (assets : List AssetSnapshot) (u d : Nat) : List ℚ :=
  (assets.filter (fun a => a.userId == u && a.date == d)).map
    (fun a => a.value)

/-- Modelled from the spec: `total_assets` on a stored snapshot, "sum of
all Asset Snapshot values sharing this snapshot's (user, date)"; the
computing model property is not in the provided `models.py`. -/
def NetWorthSnapshot.total_assets (assets : List AssetSnapshot)
    (s : NetWorthSnapshot) : ℚ :=
  (assetValuesOn assets s.userId s.date).sum

/-- The user's net worth snapshots strictly before `s` by date, the
candidates for "the immediately preceding snapshot". -/
def nwsPrevCandidates (rows : List NetWorthSnapshot)
    (s : NetWorthSnapshot) : List NetWorthSnapshot :=
  rows.filter (fun q => q.userId == s.userId && q.date < s.date)

/-- The immediately preceding snapshot of the same user by date, if any. -/
def previousNWSnapshot (rows : List NetWorthSnapshot)
    (s : NetWorthSnapshot) : Option NetWorthSnapshot :=
  pickLatest (fun q => q.date) (nwsPrevCandidates rows s)

/-- Modelled from the spec: two-decimal rounding of a change percentage
(the rounding mode is not pinned down by the spec; half is rounded up). -/
def round2 (q : ℚ) : ℚ :=
  ((q * 100 + 1 / 2).floor : ℚ) / 100

/-- Modelled from the spec: `change_from_previous` on a stored snapshot,
"`total_assets` of this snapshot minus `total_assets` of the immediately
preceding snapshot (by date, same user); zero if no prior snapshot
exists"; the computing model property is not in the provided `models.py`. -/
def NetWorthSnapshot.change_from_previous (assets : List AssetSnapshot)
    (rows : List NetWorthSnapshot) (s : NetWorthSnapshot) : ℚ :=
  match previousNWSnapshot rows s with
  | some p => s.total_assets assets - p.total_assets assets
  | none => 0

/-- Modelled from the spec: `change_percentage` on a stored snapshot,
"`change_from_previous / previous_total_assets * 100`, with two-decimal
rounding; zero if no prior snapshot or previous total is zero"; the
computing model property is not in the provided `models.py`. -/
def NetWorthSnapshot.change_percentage (assets : List AssetSnapshot)
    (rows : List NetWorthSnapshot) (s : NetWorthSnapshot) : ℚ :=
  match previousNWSnapshot rows s with
  | some p =>
    if p.total_assets assets = 0 then 0
    else
      round2 ((s.total_assets assets - p.total_assets assets)
        / p.total_assets assets * 100)
  | none => 0

/-- The identity of one captured asset: (user, date, asset type,
asset identifier), the key under which the snapshot engine writes or
overwrites one `AssetSnapshot` row. -/
def assetKey (a : AssetSnapshot) : Nat × Nat × String × String :=
  (a.userId, a.date, a.asset_type, a.asset_identifier)

/-- Modelled from the spec: the assets captured by the "create/update
point-in-time snapshot" operation, one `AssetSnapshot` per currently-held
asset of the user across all five asset classes, valued at its current
balance or market value; the view implementing this operation is not in
the provided `views.py`. -/
def capturedAssets (db : Db) (u d : Nat) : List AssetSnapshot :=
  ((db.bankAccounts.filter (fun a => a.userId == u)).map (fun a =>
    { userId := u, date := d, asset_type := "bank",
      asset_name := a.bank_name ++ " - " ++ a.name,
      asset_identifier := toString a.id, value := a.balance,
      quantity := none, price_per_unit := none }))
  ++ ((db.superAccounts.filter (fun a => a.userId == u)).map (fun a =>
    { userId := u, date := d, asset_type := "super",
      asset_name := a.fund_name, asset_identifier := toString a.id,
      value := a.balance, quantity := none, price_per_unit := none }))
  ++ ((db.etfHoldings.filter (fun h => h.userId == u)).map (fun h =>
    { userId := u, date := d, asset_type := "etf", asset_name := h.symbol,
      asset_identifier := toString h.id, value := h.market_value,
      quantity := some h.units, price_per_unit := some h.current_price }))
  ++ ((db.stockHoldings.filter (fun h => h.userId == u)).map (fun h =>
    { userId := u, date := d, asset_type := "stock", asset_name := h.symbol,
      asset_identifier := toString h.id, value := h.market_value,
      quantity := some h.units, price_per_unit := some h.current_price }))
  ++ ((db.cryptoHoldings.filter (fun h => h.userId == u)).map (fun h =>
    { userId := u, date := d, asset_type := "crypto", asset_name := h.symbol,
      asset_identifier := toString h.id, value := h.market_value,
      quantity := some h.quantity, price_per_unit := some h.current_price }))

/-- Outcome reported by the create/update snapshot operation. -/
inductive SnapshotOutcome where
  | validationError
  | created (assetsCaptured : Nat)
  | updated (assetsCaptured : Nat)
  deriving DecidableEq, Repr

/-- Modelled from the spec: the "create/update point-in-time snapshot"
operation (the view is not in the provided `views.py`; behavior follows
spec section 4.2 and the view tests): reject a missing date; write or
overwrite one `AssetSnapshot` row per captured asset keyed by (user, date,
asset identity); create the `NetWorthSnapshot` row for (user, date) if
absent, otherwise update its notes and report "updated" instead of
"created". -/
def createNetWorthSnapshot (db : Db) (u : Nat) (dateInput : Option Nat)
    (notes : String) : Db × SnapshotOutcome :=
  match dateInput with
  | none => (db, SnapshotOutcome.validationError)
  | some d =>
    let captured := capturedAssets db u d
    let keys := captured.map assetKey
    let newAssets :=
      (db.assetSnapshots.filter (fun r => !(decide (assetKey r ∈ keys))))
        ++ captured
    let hasRow := db.netWorthSnapshots.any
      (fun r => r.userId == u && r.date == d)
    let newRows :=
      if hasRow then
        db.netWorthSnapshots.map (fun r =>
          if r.userId == u && r.date == d then { r with notes := notes }
          else r)
      else
        db.netWorthSnapshots ++ [{ userId := u, date := d, notes := notes }]
    ({ db with assetSnapshots := newAssets, netWorthSnapshots := newRows },
      if hasRow then SnapshotOutcome.updated captured.length
      else SnapshotOutcome.created captured.length)

/-- Number of `NetWorthSnapshot` rows stored for one (user, date). -/
def nwsCount (rows : List NetWorthSnapshot) (u d : Nat) : Nat :=
  rows.countP (fun r => r.userId == u && r.date == d)

/-- Number of `AssetSnapshot` rows stored under one asset identity key. -/
def assetKeyCount (rows : List AssetSnapshot)
    (k : Nat × Nat × String × String) : Nat :=
  rows.countP (fun r => decide (assetKey r = k))

/-- A CoinGecko `/simple/price` response body: asset identifier to
(currency to price) mapping. -/
abbrev PriceMap : Type := List (String × List (String × ℚ))

/-- The price the refresh loop reads for one holding (views.py lines
382-385): present exactly when the holding's id is a key of the response
and carries an `aud` price. -/
def priceFor (prices : PriceMap) (cid : String) : Option ℚ :=
  match prices.lookup cid with
  | some priceData => priceData.lookup "aud"
  | none => none

/-- Outcome of the `refresh_crypto_prices` view. -/
inductive RefreshOutcome where
  | noHoldings
  | configError
  | serviceError (msg : String)
  | ok (updatedCount : Nat)
  deriving DecidableEq, Repr

/-- One iteration of the update loop of `refresh_crypto_prices` (views.py
lines 379-392): the possibly-updated holding and whether it was written.
Holdings of other users, holdings with a blank id and holdings whose id or
`aud` price is missing from the response are left untouched. -/
def updateCryptoHolding (u : Nat) (prices : PriceMap)
    (h : CryptoHolding) : CryptoHolding × Bool :=
  if h.userId == u then
    match h.coingecko_id with
    | some cid =>
      match priceFor prices cid with
      | some p => ({ h with current_price := p }, true)
      | none => (h, false)
    | none => (h, false)
  else (h, false)

/-- The `refresh_crypto_prices` view (views.py lines 342-400) for user `u`.
The CoinGecko call is modelled by the `provider` argument: `Except.error`
is a `requests.RequestException` or non-2xx status, `Except.ok` the parsed
response.  The request is issued only after the empty-holdings and
no-ids guards, and all writes happen after it returns. -/
def refreshCryptoPrices (db : Db) (u : Nat)
    (provider : Except String PriceMap) : Db × RefreshOutcome :=
  let holdings := db.cryptoHoldings.filter (fun h => h.userId == u)
  if holdings.isEmpty then (db, RefreshOutcome.noHoldings)
  else
    let coingeckoIds := holdings.filterMap (fun h => h.coingecko_id)
    if coingeckoIds.isEmpty then (db, RefreshOutcome.configError)
    else
      match provider with
      | Except.error e => (db, RefreshOutcome.serviceError e)
      | Except.ok prices =>
        ({ db with
            cryptoHoldings := db.cryptoHoldings.map
              (fun h => (updateCryptoHolding u prices h).1) },
          RefreshOutcome.ok ((db.cryptoHoldings.filter
            (fun h => (updateCryptoHolding u prices h).2)).length))

/-- The `info` fields read by the single-ticker yfinance lookups
(views.py lines 466-470 and 515-519). -/
structure TickerInfo where
  currentPrice : Option ℚ
  regularMarketPrice : Option ℚ
  previousClose : Option ℚ
  deriving DecidableEq, Repr

/-- Python truthiness of `info.get(...)`: `None` and a zero price are
falsy. -/
def pyTruthy : Option ℚ → Bool
  | none => false
  | some p => p != 0

/-- Python's `a or b` on optional prices: `b` when `a` is falsy. -/
def pyOr (a b : Option ℚ) : Option ℚ :=
  if pyTruthy a then a else b

/-- The price selection of `get_etf_price`/`get_stock_price` (views.py
lines 466-484): `info.get("currentPrice") or info.get("regularMarketPrice")
or info.get("previousClose")`, then the `if price:` guard; `none` is the
404 "Price not found" path. -/
def selectPrice (info : TickerInfo) : Option ℚ :=
  let price := pyOr (pyOr info.currentPrice info.regularMarketPrice)
    info.previousClose
  if pyTruthy price then price else none

/-- Definition following the claim's words, for comparison with
`selectPrice`: the first price field that is present in the provider
response, regardless of its value. -/
def firstPresentPrice (info : TickerInfo) : Option ℚ :=
  info.currentPrice <|> info.regularMarketPrice <|> info.previousClose

/-- Ticker formatting of `get_etf_price` (views.py lines 455-459):
uppercase, and append ".AX" for the ASX exchange unless already
suffixed. -/
def formatTickerETFLookup (ticker exchange : String) : String :=
  let t := ticker.toUpper
  if exchange.toUpper == "ASX" && !(t.endsWith ".AX") then t ++ ".AX" else t

/-- Ticker formatting of `get_stock_price` (views.py lines 504-508). -/
def formatTickerStockLookup (ticker exchange : String) : String :=
  let t := ticker.toUpper
  if exchange.toUpper == "ASX" && !(t.endsWith ".AX") then t ++ ".AX" else t

/-- Ticker formatting of the batch `refresh_etf_prices` view (views.py
lines 565-574). -/
def formatTickerETFRefresh (ticker exchange : String) : String :=
  let t := ticker.toUpper
  if exchange.toUpper == "ASX" && !(t.endsWith ".AX") then t ++ ".AX" else t

/-- The `get_crypto_price` view's lookup (views.py lines 425-435):
the response price of the requested identifier in `aud`; `none` is the
404 "Price not found" path. -/
def getCryptoPriceLookup (prices : PriceMap) (cid : String) : Option ℚ :=
  match prices.lookup cid with
  | some priceData =>
    match priceData.lookup "aud" with
    | some p => some p
    | none => none
  | none => none

/-- C1: for every ETF, crypto or stock holding, the derived fields satisfy
`market_value = quantity * current_price`, `cost_basis = quantity *
average_price` and `market_value - cost_basis = unrealised_gain` exactly in
decimal (rational) arithmetic, for every stored quantity/price triple,
including zero quantity. -/
theorem holding_valuation_identities
    (e : ETFHolding) (c : CryptoHolding) (s : StockHolding) :
    e.market_value = e.units * e.current_price
      ∧ e.cost_basis = e.units * e.average_price
      ∧ e.market_value - e.cost_basis = e.unrealised_gain
      ∧ c.market_value = c.quantity * c.current_price
      ∧ c.cost_basis = c.quantity * c.average_price
      ∧ c.market_value - c.cost_basis = c.unrealised_gain
      ∧ s.market_value = s.units * s.current_price
      ∧ s.cost_basis = s.units * s.average_price
      ∧ s.market_value - s.cost_basis = s.unrealised_gain := by
  exact ⟨rfl, rfl, rfl, rfl, rfl, rfl, rfl, rfl, rfl⟩

/-- C2: the networth summary returns a total net worth equal to the sum of
the requesting user's bank balances, superannuation balances and the
market values of the user's ETF, crypto and stock holdings; invested
capital equal to the sum of their cost bases; per-category unrealised gain
equal to market value minus cost basis; and dividend totals equal to the
sum of `total_amount` over the user's ETF transactions of type dividend or
distribution plus the user's stock transactions of type dividend. -/
theorem networth_summary_aggregates (db : Db) (u : Nat) :
    (networth_summary db u).total_networth
        = ((db.bankAccounts.filter (fun a => a.userId == u)).map
            (fun a => a.balance)).sum
          + ((db.superAccounts.filter (fun a => a.userId == u)).map
              (fun a => a.balance)).sum
          + ((db.etfHoldings.filter (fun h => h.userId == u)).map
              ETFHolding.market_value).sum
          + ((db.cryptoHoldings.filter (fun h => h.userId == u)).map
              CryptoHolding.market_value).sum
          + ((db.stockHoldings.filter (fun h => h.userId == u)).map
              StockHolding.market_value).sum
      ∧ (networth_summary db u).total_invested
        = ((db.etfHoldings.filter (fun h => h.userId == u)).map
            ETFHolding.cost_basis).sum
          + ((db.cryptoHoldings.filter (fun h => h.userId == u)).map
              CryptoHolding.cost_basis).sum
          + ((db.stockHoldings.filter (fun h => h.userId == u)).map
              StockHolding.cost_basis).sum
      ∧ (networth_summary db u).etf_unrealised_gain
        = (networth_summary db u).etf_market_value
          - (networth_summary db u).etf_cost_basis
      ∧ (networth_summary db u).crypto_unrealised_gain
        = (networth_summary db u).crypto_market_value
          - (networth_summary db u).crypto_cost_basis
      ∧ (networth_summary db u).stock_unrealised_gain
        = (networth_summary db u).stock_market_value
          - (networth_summary db u).stock_cost_basis
      ∧ (networth_summary db u).etf_dividends
        = ((db.etfTransactions.filter (fun t =>
              etfTxnUser db t == some u
                && (t.transaction_type == "dividend"
                    || t.transaction_type == "distribution"))).map
            (fun t => t.total_amount)).sum
      ∧ (networth_summary db u).stock_dividends
        = ((db.stockTransactions.filter (fun t =>
              stockTxnUser db t == some u
                && t.transaction_type == "dividend")).map
            (fun t => t.total_amount)).sum
      ∧ (networth_summary db u).total_dividends
        = (networth_summary db u).etf_dividends
          + (networth_summary db u).stock_dividends := by
  exact ⟨rfl, rfl, rfl, rfl, rfl, rfl, rfl, rfl⟩

theorem pickLatest_eq_none {α : Type} (key : α → Nat) (l : List α) :
    pickLatest key l = none ↔ l = [] := by
  cases l with
  | nil => simp [pickLatest]
  | cons x xs =>
    simp only [pickLatest]
    cases h : pickLatest key xs with
    | none => simp
    | some y =>
      by_cases hk : key x < key y <;> simp [hk]
theorem pickLatest_mem {α : Type} (key : α → Nat) :
    ∀ (l : List α) (y : α), pickLatest key l = some y → y ∈ l := by
  intro l
  induction l with
  | nil => intro y h; simp [pickLatest] at h
  | cons x xs ih =>
    intro y h
    simp only [pickLatest] at h
    cases h' : pickLatest key xs with
    | none =>
      rw [h'] at h
      simp at h
      simp [h]
    | some z =>
      rw [h'] at h
      by_cases hk : key x < key z
      · simp [hk] at h
        exact List.mem_cons_of_mem x (h ▸ ih z h')
      · simp [hk] at h
        simp [h]

theorem pickLatest_max {α : Type} (key : α → Nat) :
    ∀ (l : List α) (y : α), pickLatest key l = some y →
      ∀ x ∈ l, key x ≤ key y := by
  intro l
  induction l with
  | nil => intro y h; simp [pickLatest] at h
  | cons a xs ih =>
    intro y h x hx
    simp only [pickLatest] at h
    cases h' : pickLatest key xs with
    | none =>
      rw [h'] at h
      simp at h
      rcases List.mem_cons.mp hx with rfl | hmem
      · exact h ▸ le_refl _
      · rw [pickLatest_eq_none] at h'
        simp [h'] at hmem
    | some z =>
      rw [h'] at h
      rcases List.mem_cons.mp hx with rfl | hmem
      · by_cases hk : key x < key z
        · simp [hk] at h
          exact le_of_lt (h ▸ hk)
        · simp [hk] at h
          exact h ▸ le_refl _
      · have hz := ih z h' x hmem
        by_cases hk : key a < key z
        · simp [hk] at h
          exact h ▸ hz
        · simp [hk] at h
          exact le_trans hz (h ▸ le_of_not_lt hk)

theorem pickLatest_unique {α : Type} (key : α → Nat) :
    ∀ (l : List α) (p : α), p ∈ l → (∀ x ∈ l, key x ≤ key p) →
      (∀ x ∈ l, key x = key p → x = p) → pickLatest key l = some p := by
  intro l
  induction l with
  | nil => intro p hp _ _; simp at hp
  | cons a xs ih =>
    intro p hp hmax huniq
    simp only [pickLatest]
    rcases List.mem_cons.mp hp with rfl | hmem
    · cases h' : pickLatest key xs with
      | none => rfl
      | some z =>
        have hz : key z ≤ key p :=
          hmax z (List.mem_cons_of_mem _ (pickLatest_mem key xs z h'))
        simp [Nat.not_lt_of_le hz]
    · have hxs : pickLatest key xs = some p :=
        ih p hmem (fun x hx => hmax x (List.mem_cons_of_mem _ hx))
          (fun x hx he => huniq x (List.mem_cons_of_mem _ hx) he)
      rw [hxs]
      by_cases hk : key a < key p
      · simp [hk]
      · have hle : key a ≤ key p := hmax a (List.mem_cons_self _ _)
        have heq : key a = key p := le_antisymm hle (le_of_not_lt hk)
        have hap : a = p := huniq a (List.mem_cons_self _ _) heq
        subst hap
        simp [hk]

/-- C5: for every superannuation snapshot `s`, `investment_gain` equals
(balance - previous balance) - (employer + personal contribution) where
the previous snapshot is the stored snapshot of the same account with the
greatest date strictly earlier than `s`'s; and it equals `0` when the
account has no earlier snapshot. -/
theorem superannuation_investment_gain_correct
    (rows : List SuperannuationSnapshot) (s p : SuperannuationSnapshot)
    (hmem : p ∈ rows) (hacct : p.accountId = s.accountId)
    (hbefore : p.date < s.date)
    (hlatest : ∀ q ∈ rows, q.accountId = s.accountId → q.date < s.date →
      q.date ≤ p.date)
    (huniq : ∀ q ∈ rows, q.accountId = s.accountId → q.date < s.date →
      q.date = p.date → q = p) :
    SuperannuationSnapshot.investment_gain rows s
        = (s.balance - p.balance)
          - (s.employer_contribution + s.personal_contribution)
      ∧ ∀ rows' : List SuperannuationSnapshot,
          (∀ q ∈ rows', q.accountId = s.accountId → ¬ q.date < s.date) →
          SuperannuationSnapshot.investment_gain rows' s = 0 := by
  constructor
  · have hp : p ∈ superPrevCandidates rows s := by
      simp only [superPrevCandidates, List.mem_filter]
      exact ⟨hmem, by simp [hacct, hbefore]⟩
    have hpick :
        pickLatest (fun q => q.date) (superPrevCandidates rows s) = some p := by
      apply pickLatest_unique
      · exact hp
      · intro x hx
        obtain ⟨hxr, hxp⟩ := List.mem_filter.mp hx
        simp only [Bool.and_eq_true, beq_iff_eq, decide_eq_true_eq] at hxp
        exact hlatest x hxr hxp.1 hxp.2
      · intro x hx he
        obtain ⟨hxr, hxp⟩ := List.mem_filter.mp hx
        simp only [Bool.and_eq_true, beq_iff_eq, decide_eq_true_eq] at hxp
        exact huniq x hxr hxp.1 hxp.2 he
    simp [SuperannuationSnapshot.investment_gain, hpick,
      SuperannuationSnapshot.total_contributions]
  · intro rows' hnone
    have hfil : superPrevCandidates rows' s = [] := by
      simp only [superPrevCandidates]
      rw [List.filter_eq_nil_iff]
      intro q hq
      simp only [Bool.and_eq_true, beq_iff_eq, decide_eq_true_eq, not_and]
      exact hnone q hq
    rw [SuperannuationSnapshot.investment_gain, hfil]
    rfl

/-- Witness for C5 at the test suite's numbers: balances 50000 then 52000
with contributions 500 + 200 give a gain of 1300, and a first-ever
snapshot has gain 0. -/
theorem superannuation_investment_gain_correct_witness :
    SuperannuationSnapshot.investment_gain
        [⟨1, 10, 50000, 0, 0⟩, ⟨1, 20, 52000, 500, 200⟩]
        ⟨1, 20, 52000, 500, 200⟩ = 1300
      ∧ SuperannuationSnapshot.investment_gain []
          ⟨1, 20, 52000, 500, 200⟩ = 0 := by
  have h := superannuation_investment_gain_correct
    [⟨1, 10, 50000, 0, 0⟩, ⟨1, 20, 52000, 500, 200⟩]
    ⟨1, 20, 52000, 500, 200⟩ ⟨1, 10, 50000, 0, 0⟩
    (by simp) rfl (by decide)
    (by intro q hq h1 h2
        simp only [List.mem_cons, List.mem_singleton] at hq
        rcases hq with rfl | rfl | h
        · exact le_refl _
        · exact absurd h2 (by decide)
        · simp at h)
    (by intro q hq h1 h2 h3
        simp only [List.mem_cons, List.mem_singleton] at hq
        rcases hq with rfl | rfl | h
        · rfl
        · exact absurd h2 (by decide)
        · simp at h)
  exact ⟨h.1.trans (by norm_num), h.2 [] (by simp)⟩

/-- C3: on a stored net worth snapshot read, `change_from_previous` is
this snapshot's `total_assets` minus the `total_assets` of the same user's
snapshot with the greatest strictly earlier date, and `change_percentage`
is that change over the previous total times 100 rounded to two decimals,
zero when the previous total is zero; both are zero when the user has no
earlier snapshot. -/
theorem networth_snapshot_change_fields
    (assets : List AssetSnapshot) (rows : List NetWorthSnapshot)
    (s p : NetWorthSnapshot) (hmem : p ∈ rows) (huser : p.userId = s.userId)
    (hbefore : p.date < s.date)
    (hlatest : ∀ q ∈ rows, q.userId = s.userId → q.date < s.date →
      q.date ≤ p.date)
    (huniq : ∀ q ∈ rows, q.userId = s.userId → q.date < s.date →
      q.date = p.date → q = p) :
    NetWorthSnapshot.change_from_previous assets rows s
        = s.total_assets assets - p.total_assets assets
      ∧ NetWorthSnapshot.change_percentage assets rows s
        = (if p.total_assets assets = 0 then 0
           else round2 ((s.total_assets assets - p.total_assets assets)
              / p.total_assets assets * 100))
      ∧ ∀ rows' : List NetWorthSnapshot,
          (∀ q ∈ rows', q.userId = s.userId → ¬ q.date < s.date) →
          NetWorthSnapshot.change_from_previous assets rows' s = 0
            ∧ NetWorthSnapshot.change_percentage assets rows' s = 0 := by
  have hp : p ∈ nwsPrevCandidates rows s := by
    simp only [nwsPrevCandidates, List.mem_filter]
    exact ⟨hmem, by simp [huser, hbefore]⟩
  have hpick : previousNWSnapshot rows s = some p := by
    apply pickLatest_unique
    · exact hp
    · intro x hx
      obtain ⟨hxr, hxp⟩ := List.mem_filter.mp hx
      simp only [Bool.and_eq_true, beq_iff_eq, decide_eq_true_eq] at hxp
      exact hlatest x hxr hxp.1 hxp.2
    · intro x hx he
      obtain ⟨hxr, hxp⟩ := List.mem_filter.mp hx
      simp only [Bool.and_eq_true, beq_iff_eq, decide_eq_true_eq] at hxp
      exact huniq x hxr hxp.1 hxp.2 he
  refine ⟨?_, ?_, ?_⟩
  · simp [NetWorthSnapshot.change_from_previous, hpick]
  · simp [NetWorthSnapshot.change_percentage, hpick]
  · intro rows' hnone
    have hfil : nwsPrevCandidates rows' s = [] := by
      simp only [nwsPrevCandidates]
      rw [List.filter_eq_nil_iff]
      intro q hq
      simp only [Bool.and_eq_true, beq_iff_eq, decide_eq_true_eq, not_and]
      exact hnone q hq
    constructor
    · rw [NetWorthSnapshot.change_from_previous, previousNWSnapshot, hfil]
      rfl
    · rw [NetWorthSnapshot.change_percentage, previousNWSnapshot, hfil]
      rfl

/-- Witness for C3 at the spec's example: totals 10000 then 12000 give a
change of 2000 and a percentage of 20.00, and with no prior snapshot both
derived fields are zero. -/
theorem networth_snapshot_change_fields_witness :
    NetWorthSnapshot.change_from_previous
        [⟨1, 10, "bank", "ANZ", "1", 10000, none, none⟩,
          ⟨1, 20, "bank", "ANZ", "1", 12000, none, none⟩]
        [⟨1, 10, "jan"⟩, ⟨1, 20, "feb"⟩] ⟨1, 20, "feb"⟩ = 2000
      ∧ NetWorthSnapshot.change_percentage
          [⟨1, 10, "bank", "ANZ", "1", 10000, none, none⟩,
            ⟨1, 20, "bank", "ANZ", "1", 12000, none, none⟩]
          [⟨1, 10, "jan"⟩, ⟨1, 20, "feb"⟩] ⟨1, 20, "feb"⟩ = 20
      ∧ NetWorthSnapshot.change_from_previous
          [⟨1, 10, "bank", "ANZ", "1", 10000, none, none⟩,
            ⟨1, 20, "bank", "ANZ", "1", 12000, none, none⟩]
          [] ⟨1, 20, "feb"⟩ = 0
      ∧ NetWorthSnapshot.change_percentage
          [⟨1, 10, "bank", "ANZ", "1", 10000, none, none⟩,
            ⟨1, 20, "bank", "ANZ", "1", 12000, none, none⟩]
          [] ⟨1, 20, "feb"⟩ = 0 := by
  have h := networth_snapshot_change_fields
    [⟨1, 10, "bank", "ANZ", "1", 10000, none, none⟩,
      ⟨1, 20, "bank", "ANZ", "1", 12000, none, none⟩]
    [⟨1, 10, "jan"⟩, ⟨1, 20, "feb"⟩] ⟨1, 20, "feb"⟩ ⟨1, 10, "jan"⟩
    (by simp) rfl (by decide)
    (by intro q hq h1 h2
        simp only [List.mem_cons, List.mem_singleton] at hq
        rcases hq with rfl | rfl | hq
        · exact le_refl _
        · exact absurd h2 (by decide)
        · simp at hq)
    (by intro q hq h1 h2 h3
        simp only [List.mem_cons, List.mem_singleton] at hq
        rcases hq with rfl | rfl | hq
        · rfl
        · exact absurd h2 (by decide)
        · simp at hq)
  have hnil := h.2.2 [] (by simp)
  refine ⟨h.1.trans ?_, (h.2.1).trans ?_, hnil.1, hnil.2⟩
  · simp [NetWorthSnapshot.total_assets, assetValuesOn]
    norm_num
  · simp [NetWorthSnapshot.total_assets, assetValuesOn]
    norm_num [round2, Rat.floor]

theorem createNetWorthSnapshot_of_exists (db : Db) (u d : Nat)
    (notes : String)
    (hrow : db.netWorthSnapshots.any
      (fun r => r.userId == u && r.date == d) = true) :
    createNetWorthSnapshot db u (some d) notes
      = ({ db with
            assetSnapshots := (db.assetSnapshots.filter (fun r =>
                !(decide (assetKey r ∈ (capturedAssets db u d).map assetKey))))
              ++ capturedAssets db u d
            netWorthSnapshots := db.netWorthSnapshots.map (fun r =>
              if r.userId == u && r.date == d then { r with notes := notes }
              else r) },
          SnapshotOutcome.updated (capturedAssets db u d).length) := by
  simp [createNetWorthSnapshot, hrow]

theorem nwsCount_map_update_notes (rows : List NetWorthSnapshot)
    (u d : Nat) (notes : String) (u' d' : Nat) :
    nwsCount (rows.map (fun r =>
        if r.userId == u && r.date == d then { r with notes := notes }
        else r)) u' d'
      = nwsCount rows u' d' := by
  simp only [nwsCount, List.countP_map]
  apply List.countP_congr
  intro r _
  by_cases hr : (r.userId == u && r.date == d) = true
  · simp [Function.comp, hr]
  · simp [Function.comp, hr]

/-- C4: rerunning the create/update snapshot operation for a (user, date)
that already has a net worth snapshot row updates that row's notes and
reports an updated outcome, leaves the number of net worth snapshot rows
of every (user, date) unchanged, and overwrites the prior asset snapshot
rows of every captured asset identity instead of appending to them; and
every run of the operation preserves the at-most-one-row-per-(user, date)
invariant. -/
theorem snapshot_upsert_no_duplicate (db : Db) (u d : Nat) (notes : String)
    (e : NetWorthSnapshot) (he : e ∈ db.netWorthSnapshots)
    (heu : e.userId = u) (hed : e.date = d) :
    (createNetWorthSnapshot db u (some d) notes).2
        = SnapshotOutcome.updated (capturedAssets db u d).length
      ∧ (∀ u' d' : Nat,
          nwsCount
              (createNetWorthSnapshot db u (some d) notes).1.netWorthSnapshots
              u' d'
            = nwsCount db.netWorthSnapshots u' d')
      ∧ (∀ r ∈ (createNetWorthSnapshot db u (some d) notes).1.netWorthSnapshots,
          r.userId = u → r.date = d → r.notes = notes)
      ∧ (∀ k ∈ (capturedAssets db u d).map assetKey,
          assetKeyCount
              (createNetWorthSnapshot db u (some d) notes).1.assetSnapshots k
            = assetKeyCount (capturedAssets db u d) k)
      ∧ (∀ (db₂ : Db) (u₂ : Nat) (dateInput : Option Nat) (notes₂ : String),
          (∀ u' d' : Nat, nwsCount db₂.netWorthSnapshots u' d' ≤ 1) →
          ∀ u' d' : Nat,
            nwsCount
                (createNetWorthSnapshot db₂ u₂ dateInput
                  notes₂).1.netWorthSnapshots u' d'
              ≤ 1) := by
  have hrow : db.netWorthSnapshots.any
      (fun r => r.userId == u && r.date == d) = true :=
    List.any_eq_true.mpr ⟨e, he, by simp [heu, hed]⟩
  refine ⟨?_, ?_, ?_, ?_, ?_⟩
  · rw [createNetWorthSnapshot_of_exists db u d notes hrow]
  · intro u' d'
    rw [createNetWorthSnapshot_of_exists db u d notes hrow]
    exact nwsCount_map_update_notes db.netWorthSnapshots u d notes u' d'
  · intro r hr hru hrd
    rw [createNetWorthSnapshot_of_exists db u d notes hrow] at hr
    obtain ⟨x, hx, rfl⟩ := List.mem_map.mp hr
    by_cases hc : (x.userId == u && x.date == d) = true
    · simp [hc]
    · simp only [hc, if_false, Bool.false_eq_true] at hru hrd ⊢
      simp [hru, hrd] at hc
  · intro k hk
    rw [createNetWorthSnapshot_of_exists db u d notes hrow]
    simp only [assetKeyCount, List.countP_append]
    have hz : (db.assetSnapshots.filter (fun r =>
        !(decide (assetKey r ∈ (capturedAssets db u d).map assetKey)))).countP
          (fun r => decide (assetKey r = k)) = 0 := by
      rw [List.countP_eq_zero]
      intro a ha hak
      obtain ⟨haold, hfil⟩ := List.mem_filter.mp ha
      simp only [Bool.not_eq_true', decide_eq_false_iff_not] at hfil
      simp only [decide_eq_true_eq] at hak
      exact hfil (hak ▸ hk)
    rw [hz, Nat.zero_add]
  · intro db₂ u₂ dateInput notes₂ hinv u' d'
    match dateInput with
    | none => simpa [createNetWorthSnapshot] using hinv u' d'
    | some dd =>
      by_cases hR : db₂.netWorthSnapshots.any
          (fun r => r.userId == u₂ && r.date == dd) = true
      · rw [createNetWorthSnapshot_of_exists db₂ u₂ dd notes₂ hR,
          nwsCount_map_update_notes]
        exact hinv u' d'
      · have hR2 : db₂.netWorthSnapshots.any
            (fun r => r.userId == u₂ && r.date == dd) = false := by
          revert hR
          cases db₂.netWorthSnapshots.any
            (fun r => r.userId == u₂ && r.date == dd) <;> simp
        have hbody : (createNetWorthSnapshot db₂ u₂ (some dd)
              notes₂).1.netWorthSnapshots
            = db₂.netWorthSnapshots
              ++ [{ userId := u₂, date := dd, notes := notes₂ }] := by
          simp [createNetWorthSnapshot, hR2]
        rw [hbody, nwsCount, List.countP_append]
        by_cases hm : (u₂ == u' && dd == d') = true
        · simp only [Bool.and_eq_true, beq_iff_eq] at hm
          have hz : db₂.netWorthSnapshots.countP
              (fun r => r.userId == u' && r.date == d') = 0 := by
            rw [List.countP_eq_zero]
            intro a ha hpa
            have hnot := List.any_eq_false.mp hR2 a ha
            simp only [Bool.and_eq_true, beq_iff_eq] at hpa hnot
            exact hnot ⟨hm.1 ▸ hpa.1, hm.2 ▸ hpa.2⟩
          rw [hz]
          simp [List.countP_cons, hm]
        · have hone : List.countP
              (fun r => r.userId == u' && r.date == d')
              [({ userId := u₂, date := dd, notes := notes₂ }
                : NetWorthSnapshot)] = 0 := by
            simp only [List.countP_singleton]
            simp only [Bool.and_eq_true, beq_iff_eq] at hm ⊢
            simp only [ite_eq_right_iff]
            intro hcontra
            exact absurd hcontra hm
          rw [hone, Nat.add_zero]
          exact hinv u' d'

/-- Witness for C4: rerunning the snapshot operation for a date that
already has a snapshot row reports an updated outcome, keeps exactly one
net worth snapshot row for that (user, date), and leaves exactly one
asset snapshot row for the captured bank account's identity key. -/
theorem snapshot_upsert_no_duplicate_witness :
    (createNetWorthSnapshot
        ⟨[⟨1, 1, "sav", "bk", 10000⟩], [], [], [], [], [], [], [],
          [⟨1, 5, "bank", "bk - sav", "1", 9000, none, none⟩],
          [⟨1, 5, "old"⟩]⟩ 1 (some 5) "new").2
      = SnapshotOutcome.updated 1
    ∧ nwsCount (createNetWorthSnapshot
        ⟨[⟨1, 1, "sav", "bk", 10000⟩], [], [], [], [], [], [], [],
          [⟨1, 5, "bank", "bk - sav", "1", 9000, none, none⟩],
          [⟨1, 5, "old"⟩]⟩ 1 (some 5) "new").1.netWorthSnapshots 1 5 = 1
    ∧ assetKeyCount (createNetWorthSnapshot
        ⟨[⟨1, 1, "sav", "bk", 10000⟩], [], [], [], [], [], [], [],
          [⟨1, 5, "bank", "bk - sav", "1", 9000, none, none⟩],
          [⟨1, 5, "old"⟩]⟩ 1 (some 5) "new").1.assetSnapshots
        (1, 5, "bank", "1") = 1 := by
  have h := snapshot_upsert_no_duplicate
    ⟨[⟨1, 1, "sav", "bk", 10000⟩], [], [], [], [], [], [], [],
      [⟨1, 5, "bank", "bk - sav", "1", 9000, none, none⟩],
      [⟨1, 5, "old"⟩]⟩ 1 5 "new" ⟨1, 5, "old"⟩ (by simp) rfl rfl
  refine ⟨h.1.trans (by rfl), ?_, ?_⟩
  · rw [h.2.1 1 5]
    rfl
  · rw [h.2.2.2.1 (1, 5, "bank", "1") (by decide)]
    rfl

theorem updateCryptoHolding_fst (u : Nat) (prices : PriceMap)
    (h : CryptoHolding) :
    (updateCryptoHolding u prices h).1
      = (if h.userId == u then
          match h.coingecko_id with
          | some cid =>
            (match priceFor prices cid with
              | some p => { h with current_price := p }
              | none => h)
          | none => h
        else h) := by
  unfold updateCryptoHolding
  by_cases hu : (h.userId == u) = true
  · simp only [hu, if_true]
    cases hcg : h.coingecko_id with
    | none => simp
    | some cid => cases hp : priceFor prices cid <;> simp [hp]
  · simp [hu]

theorem updateCryptoHolding_snd (u : Nat) (prices : PriceMap)
    (h : CryptoHolding) :
    (updateCryptoHolding u prices h).2
      = (h.userId == u && (h.coingecko_id.bind (priceFor prices)).isSome) := by
  unfold updateCryptoHolding
  by_cases hu : (h.userId == u) = true
  · simp only [hu, if_true, Bool.true_and]
    cases h.coingecko_id with
    | none => rfl
    | some cid => cases hp : priceFor prices cid <;> simp [Option.bind, hp]
  · simp [hu]

/-- C7: when the crypto refresh succeeds, exactly the requesting user's
holdings whose configured CoinGecko id appears in the response with an
`aud` price get their current price overwritten with that price; all other
holdings (other users, blank id, id or `aud` price missing from the
response) are unchanged, and the reported count equals the number of
holdings updated. -/
theorem refresh_crypto_prices_partial_update
    (db : Db) (u : Nat) (prices : PriceMap)
    (hne : db.cryptoHoldings.filter (fun h => h.userId == u) ≠ [])
    (hcfg : (db.cryptoHoldings.filter (fun h => h.userId == u)).filterMap
        (fun h => h.coingecko_id) ≠ []) :
    (refreshCryptoPrices db u (Except.ok prices)).1.cryptoHoldings
        = db.cryptoHoldings.map (fun h =>
            if h.userId == u then
              match h.coingecko_id with
              | some cid =>
                (match priceFor prices cid with
                  | some p => { h with current_price := p }
                  | none => h)
              | none => h
            else h)
      ∧ (refreshCryptoPrices db u (Except.ok prices)).2
        = RefreshOutcome.ok ((db.cryptoHoldings.filter (fun h =>
            h.userId == u
              && (h.coingecko_id.bind (priceFor prices)).isSome)).length)
      ∧ (refreshCryptoPrices db u (Except.ok prices)).1.bankAccounts
          = db.bankAccounts := by
  have h1 : (db.cryptoHoldings.filter
      (fun h => h.userId == u)).isEmpty = false :=
    List.isEmpty_eq_false.mpr hne
  have h2 : ((db.cryptoHoldings.filter (fun h => h.userId == u)).filterMap
      (fun h => h.coingecko_id)).isEmpty = false :=
    List.isEmpty_eq_false.mpr hcfg
  refine ⟨?_, ?_, ?_⟩
  · simp only [refreshCryptoPrices, h1, h2, Bool.false_eq_true, if_false]
    exact List.map_congr_left (fun h _ => updateCryptoHolding_fst u prices h)
  · simp only [refreshCryptoPrices, h1, h2, Bool.false_eq_true, if_false]
    rw [List.filter_congr (fun h _ => updateCryptoHolding_snd u prices h)]
  · simp only [refreshCryptoPrices, h1, h2, Bool.false_eq_true, if_false]

/-- Witness for C7: of three holdings of the user (one id in the response,
one id absent, one id unconfigured), exactly the first is updated to the
response price and the reported count is 1. -/
theorem refresh_crypto_prices_partial_update_witness :
    (refreshCryptoPrices
        ⟨[], [], [], [], [],
          [⟨1, 1, "BTC", some "bitcoin", 2, 3, 4⟩,
            ⟨2, 1, "ETH", some "ethereum", 1, 1, 1⟩,
            ⟨3, 1, "DOGE", none, 1, 1, 1⟩],
          [], [], [], []⟩ 1
        (Except.ok [("bitcoin", [("aud", 100)])])).1.cryptoHoldings
      = [⟨1, 1, "BTC", some "bitcoin", 2, 3, 100⟩,
          ⟨2, 1, "ETH", some "ethereum", 1, 1, 1⟩,
          ⟨3, 1, "DOGE", none, 1, 1, 1⟩]
    ∧ (refreshCryptoPrices
        ⟨[], [], [], [], [],
          [⟨1, 1, "BTC", some "bitcoin", 2, 3, 4⟩,
            ⟨2, 1, "ETH", some "ethereum", 1, 1, 1⟩,
            ⟨3, 1, "DOGE", none, 1, 1, 1⟩],
          [], [], [], []⟩ 1
        (Except.ok [("bitcoin", [("aud", 100)])])).2
      = RefreshOutcome.ok 1 := by
  have h := refresh_crypto_prices_partial_update
    ⟨[], [], [], [], [],
      [⟨1, 1, "BTC", some "bitcoin", 2, 3, 4⟩,
        ⟨2, 1, "ETH", some "ethereum", 1, 1, 1⟩,
        ⟨3, 1, "DOGE", none, 1, 1, 1⟩],
      [], [], [], []⟩ 1 [("bitcoin", [("aud", 100)])]
    (by simp) (by simp)
  exact ⟨h.1.trans (by rfl), h.2.1.trans (by rfl)⟩

/-- C8 counterexample: a user with no crypto holdings at all has no holding
with a configured identifier, yet the refresh returns the "No crypto
holdings to update" message, not the configuration error the claim
requires. -/
theorem refresh_crypto_prices_zero_holdings_counterexample :
    (∀ h ∈ (⟨[], [], [], [], [], [], [], [], [], []⟩ : Db).cryptoHoldings,
        h.userId = 1 → h.coingecko_id = none)
      ∧ (refreshCryptoPrices ⟨[], [], [], [], [], [], [], [], [], []⟩ 1
          (Except.ok [])).2 = RefreshOutcome.noHoldings
      ∧ (refreshCryptoPrices ⟨[], [], [], [], [], [], [], [], [], []⟩ 1
          (Except.ok [])).2 ≠ RefreshOutcome.configError := by
  exact ⟨by simp, rfl, by decide⟩

/-- C8 (amended): when the user has at least one crypto holding and none
of the user's holdings has a configured CoinGecko id, the refresh fails
with the configuration error and the store, in particular every holding's
current price, is unchanged, whatever the provider would have replied. -/
theorem refresh_crypto_prices_config_error
    (db : Db) (u : Nat) (provider : Except String PriceMap)
    (hne : db.cryptoHoldings.filter (fun h => h.userId == u) ≠ [])
    (hall : ∀ h ∈ db.cryptoHoldings, h.userId = u → h.coingecko_id = none) :
    refreshCryptoPrices db u provider = (db, RefreshOutcome.configError) := by
  have h1 : (db.cryptoHoldings.filter
      (fun h => h.userId == u)).isEmpty = false :=
    List.isEmpty_eq_false.mpr hne
  have h2 : (db.cryptoHoldings.filter (fun h => h.userId == u)).filterMap
      (fun h => h.coingecko_id) = [] := by
    rw [List.filterMap_eq_nil_iff]
    intro h hmem
    obtain ⟨hdb, hu⟩ := List.mem_filter.mp hmem
    exact hall h hdb (by simpa using hu)
  simp [refreshCryptoPrices, h1, h2]

/-- Witness for C8 (amended): one holding of the user with a blank
CoinGecko id makes the refresh return the configuration error with the
store untouched. -/
theorem refresh_crypto_prices_config_error_witness :
    refreshCryptoPrices
        ⟨[], [], [], [], [], [⟨1, 1, "BTC", none, 2, 3, 4⟩], [], [], [], []⟩
        1 (Except.error "down")
      = (⟨[], [], [], [], [], [⟨1, 1, "BTC", none, 2, 3, 4⟩], [], [], [], []⟩,
          RefreshOutcome.configError) :=
  refresh_crypto_prices_config_error
    ⟨[], [], [], [], [], [⟨1, 1, "BTC", none, 2, 3, 4⟩], [], [], [], []⟩
    1 (Except.error "down") (by simp) (by simp)

theorem selectPrice_eq (info : TickerInfo) :
    selectPrice info
      = (if pyTruthy info.currentPrice then info.currentPrice
         else if pyTruthy info.regularMarketPrice then info.regularMarketPrice
         else if pyTruthy info.previousClose then info.previousClose
         else none) := by
  unfold selectPrice pyOr
  cases hc : pyTruthy info.currentPrice <;>
    cases hr : pyTruthy info.regularMarketPrice <;>
      cases hp : pyTruthy info.previousClose <;> simp [hc, hr, hp]

theorem pyTruthy_true_ne_none (a : Option ℚ) (h : pyTruthy a = true) :
    a ≠ none := by
  cases a <;> simp [pyTruthy] at h ⊢

/-- C9 counterexample: a provider response whose only price field is a
present live price of zero makes the lookup return the 404 not-found path
even though a price field is present, so "fails if and only if none of the
price fields is present" is false as stated. -/
theorem single_ticker_zero_price_counterexample :
    selectPrice ⟨some 0, none, none⟩ = none
      ∧ firstPresentPrice ⟨some 0, none, none⟩ = some 0
      ∧ (⟨some 0, none, none⟩ : TickerInfo).currentPrice ≠ none := by
  refine ⟨by simp [selectPrice, pyOr, pyTruthy], rfl, by simp⟩

/-- C9 (amended): the single-ticker equity/ETF lookup returns the first
field of (live price, regular-market price, previous close) that is
present with a non-zero value and fails with not-found if and only if no
price field is present with a non-zero value (a present zero counts as
missing); its ticker mapping agrees with the batch refresh's mapping on
every (ticker, exchange); and the single-ticker crypto lookup reads the
response exactly as the batch crypto refresh does. -/
theorem single_ticker_lookup_amended :
    (∀ info : TickerInfo,
      selectPrice info
          = (if pyTruthy info.currentPrice then info.currentPrice
             else if pyTruthy info.regularMarketPrice then
               info.regularMarketPrice
             else if pyTruthy info.previousClose then info.previousClose
             else none)
        ∧ (selectPrice info = none
            ↔ pyTruthy info.currentPrice = false
              ∧ pyTruthy info.regularMarketPrice = false
              ∧ pyTruthy info.previousClose = false))
      ∧ (∀ ticker exchange : String,
          formatTickerETFLookup ticker exchange
              = formatTickerETFRefresh ticker exchange
            ∧ formatTickerStockLookup ticker exchange
              = formatTickerETFRefresh ticker exchange)
      ∧ (∀ (prices : PriceMap) (cid : String),
          getCryptoPriceLookup prices cid = priceFor prices cid) := by
  refine ⟨?_, ?_, ?_⟩
  · intro info
    refine ⟨selectPrice_eq info, ?_⟩
    rw [selectPrice_eq info]
    cases hc : pyTruthy info.currentPrice <;>
      cases hr : pyTruthy info.regularMarketPrice <;>
        cases hp : pyTruthy info.previousClose <;>
          simp [hc, hr, hp, pyTruthy_true_ne_none]
  · intro ticker exchange
    exact ⟨rfl, rfl⟩
  · intro prices cid
    unfold getCryptoPriceLookup priceFor
    cases hl : prices.lookup cid with
    | none => rfl
    | some priceData => cases ha : priceData.lookup "aud" <;> simp [ha]

/-- C10: whenever the crypto price refresh reports the upstream
service-unavailable error, the store is exactly what it was before the
call: the batched provider request is issued before any holding is
written, so the error path modifies nothing. -/
theorem refresh_crypto_prices_error_atomic
    (db : Db) (u : Nat) (provider : Except String PriceMap) (msg : String)
    (hserr : (refreshCryptoPrices db u provider).2
      = RefreshOutcome.serviceError msg) :
    (refreshCryptoPrices db u provider).1 = db := by
  by_cases h1 : (db.cryptoHoldings.filter
      (fun h => h.userId == u)).isEmpty = true
  · simp [refreshCryptoPrices, h1]
  · by_cases h2 : ((db.cryptoHoldings.filter
        (fun h => h.userId == u)).filterMap
        (fun h => h.coingecko_id)).isEmpty = true
    · simp [refreshCryptoPrices, h1, h2]
    · cases provider with
      | error e => simp [refreshCryptoPrices, h1, h2]
      | ok prices => simp [refreshCryptoPrices, h1, h2] at hserr

/-- Witness for C10: with one configured holding and a failing provider,
the refresh reports the service error and the store is unchanged. -/
theorem refresh_crypto_prices_error_atomic_witness :
    (refreshCryptoPrices
        ⟨[], [], [], [], [],
          [⟨1, 1, "BTC", some "bitcoin", 2, 3, 4⟩], [], [], [], []⟩
        1 (Except.error "down")).1
      = ⟨[], [], [], [], [],
          [⟨1, 1, "BTC", some "bitcoin", 2, 3, 4⟩], [], [], [], []⟩ :=
  refresh_crypto_prices_error_atomic
    ⟨[], [], [], [], [],
      [⟨1, 1, "BTC", some "bitcoin", 2, 3, 4⟩], [], [], [], []⟩
    1 (Except.error "down") "down" rfl

/-- C6 (failing input): two stores that agree on user 1's records in every
table and differ only by a bank account owned by user 2 produce different
networth summaries for user 1, because the bank-accounts count in the
breakdown is taken over the whole table instead of the user's rows
(views.py line 305); so the summary result does not depend only on the
requesting user's records. -/
theorem networth_summary_counts_leak_other_users :
    ((⟨[⟨1, 1, "a", "b", 10⟩], [], [], [], [], [], [], [], [], []⟩
          : Db).bankAccounts.filter (fun a => a.userId == 1))
        = ((⟨[⟨1, 1, "a", "b", 10⟩, ⟨2, 2, "c", "d", 99⟩],
            [], [], [], [], [], [], [], [], []⟩
          : Db).bankAccounts.filter (fun a => a.userId == 1))
      ∧ (networth_summary
          ⟨[⟨1, 1, "a", "b", 10⟩], [], [], [], [], [], [], [], [], []⟩
          1).bank_count = 1
      ∧ (networth_summary
          ⟨[⟨1, 1, "a", "b", 10⟩, ⟨2, 2, "c", "d", 99⟩],
            [], [], [], [], [], [], [], [], []⟩ 1).bank_count = 2
      ∧ networth_summary
          ⟨[⟨1, 1, "a", "b", 10⟩], [], [], [], [], [], [], [], [], []⟩ 1
        ≠ networth_summary
          ⟨[⟨1, 1, "a", "b", 10⟩, ⟨2, 2, "c", "d", 99⟩],
            [], [], [], [], [], [], [], [], []⟩ 1 := by
  refine ⟨rfl, rfl, rfl, fun hcontra => ?_⟩
  have hc := congrArg NetworthSummary.bank_count hcontra
  rw [show (networth_summary
      ⟨[⟨1, 1, "a", "b", 10⟩], [], [], [], [], [], [], [], [], []⟩
      1).bank_count = 1 from rfl] at hc
  rw [show (networth_summary
      ⟨[⟨1, 1, "a", "b", 10⟩, ⟨2, 2, "c", "d", 99⟩],
        [], [], [], [], [], [], [], [], []⟩ 1).bank_count = 2 from rfl] at hc
  exact absurd hc (by decide)
